import Mathlib

/-!
Verification development for the Sentinel-1 analysis-ready-data (ARD)
preprocessing pipeline of `s1_ard.ipynb`.  The notebook in the repository
holds the configuration dictionary and the call `wp.s1_preproc(parameter)`;
the `wrapper` module implementing the pipeline stages is not part of the
repository snapshot, so the stage implementations below are modelled from
the specification document (border-noise correction, the speckle-filter
bank, the multi-temporal framework, terrain flattening and the unit
converter), while the configuration surface (option names, accepted string
values, kernel-size constraint) follows the notebook's parameter
documentation.
-/

namespace S1

/-- Speckle-filter kinds accepted by the pipeline, as documented for the
`SPECKLE_FILTER` option of `s1_ard.ipynb`. -/
inductive FilterKind
  | BOXCAR
  | LEE
  | GAMMA_MAP
  | REFINED_LEE
  | LEE_SIGMA
deriving DecidableEq

/-- Modelled from the spec: parsing of the `SPECKLE_FILTER` string option
(the `wrapper` module that validates it is not in the snapshot).  The five
accepted strings are those listed in the notebook's parameter
documentation, space-separated identifiers. -/
def parseSpeckleFilter (s : String) : Option FilterKind :=
  if s = "BOXCAR" then some .BOXCAR
  else if s = "LEE" then some .LEE
  else if s = "GAMMA MAP" then some .GAMMA_MAP
  else if s = "REFINED LEE" then some .REFINED_LEE
  else if s = "LEE SIGMA" then some .LEE_SIGMA
  else none

/-- Speckle-filtering frameworks, per the `SPECKLE_FILTER_FRAMEWORK`
option: `MONO` filters each image alone, `MULTI` runs the multi-temporal
framework. -/
inductive Framework
  | MONO
  | MULTI
deriving DecidableEq

/-- Modelled from the spec: parsing of the `SPECKLE_FILTER_FRAMEWORK`
string option. -/
def parseFramework (s : String) : Option Framework :=
  if s = "MONO" then some .MONO
  else if s = "MULTI" then some .MULTI
  else none

/-- Terrain-flattening models, per the `TERRAIN_FLATTENING_MODEL`
option. -/
inductive TerrainMode
  | DIRECT
  | VOLUME
deriving DecidableEq

/-- Modelled from the spec: parsing of the `TERRAIN_FLATTENING_MODEL`
string option. -/
def parseTerrainMode (s : String) : Option TerrainMode :=
  if s = "DIRECT" then some .DIRECT
  else if s = "VOLUME" then some .VOLUME
  else none

/-- Output formats, per the `FORMAT` option. -/
inductive OutFormat
  | LINEAR
  | DB
deriving DecidableEq

/-- Modelled from the spec: parsing of the `FORMAT` string option. -/
def parseFormat (s : String) : Option OutFormat :=
  if s = "LINEAR" then some .LINEAR
  else if s = "DB" then some .DB
  else none

/-- Configuration errors raised before any processing, per the spec's
error-handling design. -/
inductive ConfigurationError
  | invalidKernelSize
  | unsupportedFilterName
  | unsupportedFrameworkName
  | unsupportedTerrainModelName
  | unsupportedFormatName
  | emptyStack
deriving DecidableEq

/-- Modelled from the spec: a `SPECKLE_FILTER_KERNEL_SIZE` is valid when it
is odd and at least 3 (the data model requires an odd positive size ≥ 3). -/
def kernelSizeValid (n : Nat) : Bool :=
  n % 2 = 1 && 3 ≤ n

/-- An immutable window specification: a validated size plus a filter-kind
tag. -/
structure FilterKernel where
  size : Nat
  kind : FilterKind
deriving DecidableEq

/-- Modelled from the spec: `FilterKernel` construction rejects an even or
too-small size with a `ConfigurationError`. -/
def mkFilterKernel (size : Nat) (kind : FilterKind) :
    Except ConfigurationError FilterKernel :=
  if kernelSizeValid size then .ok ⟨size, kind⟩
  else .error .invalidKernelSize

/-- Modelled from the spec: the multi-temporal reference list for target
index `t` in a date-sorted stack of `n` images with window length `wl`.
All images are selected before the date of the image to be filtered; if
there are not enough images before it, images after the date are selected;
a stack shorter than `wl + 1` uses every available image. -/
def refIndices (n wl t : Nat) : List Nat :=
  if n < wl + 1 then List.range n
  else
    let preCount := min t wl
    let pre := (List.range preCount).map (fun i => t - preCount + i)
    let post := (List.range (wl - preCount)).map (fun i => t + 1 + i)
    pre ++ post

/-- Modelled from the spec: a raster is a 2-D grid of floating-point
backscatter values with a no-data sentinel, here `Option ℝ`; pixels outside
the grid are no-data by well-formedness. -/
structure Raster where
  width : Nat
  height : Nat
  px : Nat → Nat → Option ℝ
  wf : ∀ i j, height ≤ i ∨ width ≤ j → px i j = none

/-- Half of the kernel size, the window radius, as an integer offset. -/
def halfSize (k : Nat) : Int :=
  ((k / 2 : Nat) : Int)

/-- The relative offsets of a `k × k` window centered at the origin. -/
def windowOffsets (k : Nat) : List (Int × Int) :=
  (List.range k).flatMap fun (di : Nat) =>
    (List.range k).map fun (dj : Nat) =>
      ((di : Int) - halfSize k, (dj : Int) - halfSize k)

/-- Modelled from the spec: the valid samples of the `k × k` window of `r`
centered at pixel `(i, j)`: offsets falling outside the raster bounds are
excluded (the window shrinks), and no-data window pixels contribute
nothing.  Each sample keeps its relative offset alongside its value. -/
def windowSamples (r : Raster) (k : Nat) (i j : Nat) :
    List ((Int × Int) × ℝ) :=
  (windowOffsets k).filterMap fun d =>
    let a := (i : Int) + d.1
    let b := (j : Int) + d.2
    if 0 ≤ a ∧ a < (r.height : Int) ∧ 0 ≤ b ∧ b < (r.width : Int) then
      match r.px a.toNat b.toNat with
      | some v => some (d, v)
      | none => none
    else none

/-- The values of a sample list, offsets dropped. -/
def sampleVals (s : List ((Int × Int) × ℝ)) : List ℝ :=
  s.map fun p => p.2

/-- Arithmetic mean of a list of reals (0 on the empty list). -/
noncomputable def mean (l : List ℝ) : ℝ :=
  l.sum / l.length

/-- Population variance of a list of reals. -/
noncomputable def variance (l : List ℝ) : ℝ :=
  mean (l.map fun x => (x - mean l) ^ 2)

/-- Modelled from the spec: the fixed equivalent-number-of-looks constant
used by the LEE, GAMMA MAP and LEE SIGMA filters (an empirically tuned
magic number in the source wrapper). -/
noncomputable def ENL : ℝ := 5

/-- The Lee weight: ratio of local variance to local variance plus
local-mean-squared scaled by the ENL; tends to 1 for strong texture and to
0 in homogeneous regions. -/
noncomputable def leeWeight (m v : ℝ) : ℝ :=
  v / (v + m ^ 2 / ENL)

/-- The Lee estimate: weighted blend of the center value `c` and the window
mean `m` using `leeWeight`. -/
noncomputable def leeStat (c m v : ℝ) : ℝ :=
  m + leeWeight m v * (c - m)

/-- Squared speckle coefficient of variation, `1 / ENL`. -/
noncomputable def gammaCu2 : ℝ :=
  1 / ENL

/-- The Gamma prior shape parameter `alpha` of the GAMMA MAP estimator,
from the local mean `m` and variance `v`. -/
noncomputable def gammaAlpha (m v : ℝ) : ℝ :=
  (1 + gammaCu2) / (v / m ^ 2 - gammaCu2)

/-- Discriminant of the closed-form GAMMA MAP quadratic in the unknown
reflectivity, from the center value `c`, local mean `m` and variance `v`. -/
noncomputable def gammaDisc (c m v : ℝ) : ℝ :=
  ((gammaAlpha m v - ENL - 1) * m) ^ 2 + 4 * gammaAlpha m v * ENL * m * c

/-- The (larger) root of the GAMMA MAP quadratic. -/
noncomputable def gammaRoot (c m v : ℝ) : ℝ :=
  ((gammaAlpha m v - ENL - 1) * m + Real.sqrt (gammaDisc c m v)) /
    (2 * gammaAlpha m v)

/-- Modelled from the spec: the GAMMA MAP maximum-a-posteriori estimate;
falls back to the local mean when the quadratic has no real positive root
(negative discriminant, or a root that is not positive). -/
noncomputable def gammaMapStat (c m v : ℝ) : ℝ :=
  if gammaDisc c m v < 0 then m
  else if gammaRoot c m v ≤ 0 then m
  else gammaRoot c m v

/-- Whether a window offset lies on one of the four orientations through
the window center: horizontal, vertical, diagonal, anti-diagonal. -/
def onDirection (dir : Nat) (d : Int × Int) : Bool :=
  match dir with
  | 0 => d.1 == 0
  | 1 => d.2 == 0
  | 2 => d.1 == d.2
  | _ => d.1 == -d.2

/-- The sample values lying on orientation `dir` through the center. -/
def directionalSamples (s : List ((Int × Int) × ℝ)) (dir : Nat) : List ℝ :=
  sampleVals (s.filter fun p => onDirection dir p.1)

/-- Modelled from the spec: the orientation among the four whose
directional sub-window has minimal variance. -/
noncomputable def bestDirection (s : List ((Int × Int) × ℝ)) : Nat :=
  [1, 2, 3].foldl
    (fun best d =>
      if variance (directionalSamples s d) <
          variance (directionalSamples s best) then d else best)
    0

/-- Modelled from the spec: the Refined Lee estimate applies the Lee
weighting using statistics over the minimal-variance directional
sub-window only. -/
noncomputable def refinedLeeStat (c : ℝ) (s : List ((Int × Int) × ℝ)) : ℝ :=
  let vs := directionalSamples s (bestDirection s)
  leeStat c (mean vs) (variance vs)

/-- Width multiplier of the sigma range of the LEE SIGMA filter (a tuned
constant in the source wrapper, modelled from the spec). -/
noncomputable def sigmaMult : ℝ := 2

/-- Modelled from the spec: the two-pass Lee sigma estimate — a
provisional value (the window mean) bounds a sigma range; the Lee
weighting is then applied to the samples falling inside that range. -/
noncomputable def leeSigmaStat (c : ℝ) (s : List ((Int × Int) × ℝ)) : ℝ :=
  let vs := sampleVals s
  let p := mean vs
  let cu := Real.sqrt gammaCu2
  let lo := p * (1 - sigmaMult * cu)
  let hi := p * (1 + sigmaMult * cu)
  let trimmed := vs.filter fun x => decide (lo ≤ x) && decide (x ≤ hi)
  if trimmed.isEmpty then p
  else leeStat c (mean trimmed) (variance trimmed)

/-- Per-kind window statistic: the filtered value at a pixel whose center
value is `c`, computed from the valid window samples `s`. -/
noncomputable def statOf (kind : FilterKind) (c : ℝ)
    (s : List ((Int × Int) × ℝ)) : ℝ :=
  match kind with
  | .BOXCAR => mean (sampleVals s)
  | .LEE => leeStat c (mean (sampleVals s)) (variance (sampleVals s))
  | .GAMMA_MAP => gammaMapStat c (mean (sampleVals s)) (variance (sampleVals s))
  | .REFINED_LEE => refinedLeeStat c s
  | .LEE_SIGMA => leeSigmaStat c s

/-- Modelled from the spec: the single-image speckle-filter bank.  The
output has the dimensions of the input; a no-data pixel passes through
unmodified; otherwise the per-kind statistic of the valid window samples
replaces the pixel, and an empty sample set yields no-data. -/
noncomputable def applyFilter (kern : FilterKernel) (r : Raster) : Raster :=
  ⟨r.width, r.height,
    fun i j =>
      match r.px i j with
      | none => none
      | some c =>
        let s := windowSamples r kern.size i j
        if s.isEmpty then none else some (statOf kern.kind c s),
    by
      intro i j h
      simp [r.wf i j h]⟩

/-- Modelled from the spec: the empirically fixed intensity threshold of
the border-noise corrector (a tuned magic number in the source wrapper). -/
noncomputable def borderThreshold : ℝ :=
  1 / 100

/-- Maximum masking margin: a fixed fraction of the image size, bounding
the outward search of the border-noise corrector. -/
def maxMargin (n : Nat) : Nat :=
  n / 5

/-- Mean intensity of the valid pixels of row `i`. -/
noncomputable def rowMean (r : Raster) (i : Nat) : ℝ :=
  mean ((List.range r.width).filterMap fun j => r.px i j)

/-- Mean intensity of the valid pixels of column `j`. -/
noncomputable def colMean (r : Raster) (j : Nat) : ℝ :=
  mean ((List.range r.height).filterMap fun i => r.px i j)

/-- Number of consecutive below-threshold rows from the top edge, capped
at the maximum margin. -/
noncomputable def topMaskDepth (r : Raster) : Nat :=
  ((List.range (maxMargin r.height)).takeWhile
    fun i => decide (rowMean r i < borderThreshold)).length

/-- Number of consecutive below-threshold rows from the bottom edge. -/
noncomputable def bottomMaskDepth (r : Raster) : Nat :=
  ((List.range (maxMargin r.height)).takeWhile
    fun i => decide (rowMean r (r.height - 1 - i) < borderThreshold)).length

/-- Number of consecutive below-threshold columns from the left edge. -/
noncomputable def leftMaskDepth (r : Raster) : Nat :=
  ((List.range (maxMargin r.width)).takeWhile
    fun j => decide (colMean r j < borderThreshold)).length

/-- Number of consecutive below-threshold columns from the right edge. -/
noncomputable def rightMaskDepth (r : Raster) : Nat :=
  ((List.range (maxMargin r.width)).takeWhile
    fun j => decide (colMean r (r.width - 1 - j) < borderThreshold)).length

/-- Whether pixel `(i, j)` lies in one of the four masked border strips. -/
noncomputable def inMaskedBorder (r : Raster) (i j : Nat) : Prop :=
  i < topMaskDepth r ∨ r.height - bottomMaskDepth r ≤ i ∨
    j < leftMaskDepth r ∨ r.width - rightMaskDepth r ≤ j

noncomputable instance (r : Raster) (i j : Nat) :
    Decidable (inMaskedBorder r i j) := by
  unfold inMaskedBorder
  infer_instance

/-- Modelled from the spec: the border-noise corrector masks the
low-intensity edge strips of a raster to no-data, searching outward from
each edge and bounded by the maximum margin; every interior pixel is
returned unchanged. -/
noncomputable def borderNoiseCorrect (r : Raster) : Raster :=
  ⟨r.width, r.height,
    fun i j => if inMaskedBorder r i j then none else r.px i j,
    by
      intro i j h
      dsimp only
      split
      · rfl
      · exact r.wf i j h⟩

/-- Modelled from the spec: linear-to-dB conversion, `10 · log10 x` for
positive `x` and no-data for `x ≤ 0`. -/
noncomputable def lin2db (x : ℝ) : Option ℝ :=
  if 0 < x then some (10 * Real.logb 10 x) else none

/-- Modelled from the spec: dB-to-linear conversion, `10 ^ (y / 10)`. -/
noncomputable def db2lin (y : ℝ) : ℝ :=
  (10 : ℝ) ^ (y / 10)

/-- Per-raster unit conversion to dB; no-data passes through. -/
noncomputable def toDBRaster (r : Raster) : Raster :=
  ⟨r.width, r.height,
    fun i j => (r.px i j).bind lin2db,
    by
      intro i j h
      simp [r.wf i j h]⟩

/-- Modelled from the spec: terrain geometry resampled onto the image
grid — flat-earth reference area, illuminated area under each of the two
models, and the layover/shadow mask. -/
structure TerrainModel where
  flatArea : Nat → Nat → ℝ
  illumAreaDirect : Nat → Nat → ℝ
  illumAreaVolume : Nat → Nat → ℝ
  maskedLayoverShadow : Nat → Nat → Bool

/-- Minimum area quotient used to clip the normalization factor, avoiding
divide-by-near-zero amplification in deep shadow. -/
noncomputable def areaFloor : ℝ :=
  1 / 1000

/-- Modelled from the spec: terrain flattening normalizes backscatter by
the ratio of flat-earth area to local illuminated area (clipped below),
and masks layover/shadow pixels to no-data. -/
noncomputable def terrainFlatten (tm : TerrainModel) (mode : TerrainMode)
    (r : Raster) : Raster :=
  ⟨r.width, r.height,
    fun i j =>
      match r.px i j with
      | none => none
      | some v =>
        if tm.maskedLayoverShadow i j then none
        else
          let a := match mode with
            | .DIRECT => tm.illumAreaDirect i j
            | .VOLUME => tm.illumAreaVolume i j
          some (v * max (tm.flatArea i j / a) areaFloor),
    by
      intro i j h
      simp [r.wf i j h]⟩

/-- A multi-band image: named bands sharing one grid.  The incidence-angle
companion band is the band named `angle`. -/
structure Image where
  bands : List (String × Raster)

/-- Name of the incidence-angle companion band. -/
def angleBand : String :=
  "angle"

/-- The band names of an image, in order. -/
def Image.bandNames (img : Image) : List String :=
  img.bands.map fun b => b.1

/-- Look up a band by name. -/
def Image.findBand (img : Image) (n : String) : Option Raster :=
  (img.bands.find? fun b => b.1 == n).map fun b => b.2

/-- Apply a per-band raster transformation, keeping every band name. -/
def applyToBands (f : String → Raster → Raster) (img : Image) : Image :=
  ⟨img.bands.map fun b => (b.1, f b.1 b.2)⟩

/-- Per-pixel mean across a list of rasters; no-data where no raster has a
valid value. -/
noncomputable def stackMeanPx (rs : List Raster) (i j : Nat) : Option ℝ :=
  let vs := rs.filterMap fun r => r.px i j
  if vs.isEmpty then none else some (mean vs)

/-- The per-pixel ratio of the target image to the mean of the reference
rasters; no-data where either is no-data. -/
noncomputable def ratioRaster (refs : List Raster) (target : Raster) : Raster :=
  ⟨target.width, target.height,
    fun i j =>
      (target.px i j).bind fun a =>
        (stackMeanPx refs i j).map fun b => a / b,
    by
      intro i j h
      simp [target.wf i j h]⟩

/-- Modelled from the spec: one band of the multi-temporal framework —
filter the ratio image spatially, then multiply the filtered ratio back by
the per-pixel reference mean. -/
noncomputable def mtCorrectBand (kern : FilterKernel) (refs : List Raster)
    (target : Raster) : Raster :=
  ⟨(applyFilter kern (ratioRaster refs target)).width,
    (applyFilter kern (ratioRaster refs target)).height,
    fun i j =>
      ((applyFilter kern (ratioRaster refs target)).px i j).bind fun fv =>
        (stackMeanPx refs i j).map fun b => fv * b,
    by
      intro i j h
      simp [(applyFilter kern (ratioRaster refs target)).wf i j h]⟩

/-- Modelled from the spec: the multi-temporal speckle filter — every
image of the stack is corrected against the reference images selected by
`refIndices`; the angle band is untouched. -/
noncomputable def multiTemporalApply (kern : FilterKernel) (wl : Nat)
    (stack : List Image) : List Image :=
  stack.mapIdx fun t img =>
    ⟨img.bands.map fun b =>
      if b.1 = angleBand then b
      else
        (b.1,
          mtCorrectBand kern
            ((refIndices stack.length wl t).filterMap fun s =>
              (stack.get? s).bind fun im => im.findBand b.1)
            b.2)⟩

/-- The raw configuration dictionary of `s1_ard.ipynb`, restricted to the
options consumed by the processing core (field names are the notebook's
parameter keys). -/
structure RawConfig where
  APPLY_BORDER_NOISE_CORRECTION : Bool
  APPLY_SPECKLE_FILTERING : Bool
  SPECKLE_FILTER_FRAMEWORK : String
  SPECKLE_FILTER : String
  SPECKLE_FILTER_KERNEL_SIZE : Nat
  SPECKLE_FILTER_NR_OF_IMAGES : Nat
  APPLY_TERRAIN_FLATTENING : Bool
  TERRAIN_FLATTENING_MODEL : String
  FORMAT : String

/-- The validated, immutable configuration snapshot consumed read-only by
every stage. -/
structure Config where
  applyBorderNoise : Bool
  applySpeckle : Bool
  framework : Framework
  kernel : FilterKernel
  nrOfImages : Nat
  applyTerrain : Bool
  terrainMode : TerrainMode
  format : OutFormat

/-- Modelled from the spec: configuration validation, performed once at
pipeline construction, before any image processing.  The kernel size is
checked first, then the filter, framework, terrain-model and format
names. -/
def validateConfig (raw : RawConfig) : Except ConfigurationError Config :=
  if kernelSizeValid raw.SPECKLE_FILTER_KERNEL_SIZE then
    match parseSpeckleFilter raw.SPECKLE_FILTER with
    | none => .error .unsupportedFilterName
    | some kind =>
      match parseFramework raw.SPECKLE_FILTER_FRAMEWORK with
      | none => .error .unsupportedFrameworkName
      | some fw =>
        match parseTerrainMode raw.TERRAIN_FLATTENING_MODEL with
        | none => .error .unsupportedTerrainModelName
        | some tmode =>
          match parseFormat raw.FORMAT with
          | none => .error .unsupportedFormatName
          | some fmt =>
            .ok ⟨raw.APPLY_BORDER_NOISE_CORRECTION,
              raw.APPLY_SPECKLE_FILTERING, fw,
              ⟨raw.SPECKLE_FILTER_KERNEL_SIZE, kind⟩,
              raw.SPECKLE_FILTER_NR_OF_IMAGES,
              raw.APPLY_TERRAIN_FLATTENING, tmode, fmt⟩
  else .error .invalidKernelSize

/-- The border-noise stage over a whole image. -/
noncomputable def borderStage : Image → Image :=
  applyToBands fun _ r => borderNoiseCorrect r

/-- The mono-framework speckle stage: every polarization band is filtered,
the angle band is untouched. -/
noncomputable def monoSpeckleStage (kern : FilterKernel) : Image → Image :=
  applyToBands fun n r => if n = angleBand then r else applyFilter kern r

/-- The terrain-flattening stage over a whole image. -/
noncomputable def terrainStage (tm : TerrainModel) (mode : TerrainMode) :
    Image → Image :=
  applyToBands fun n r => if n = angleBand then r else terrainFlatten tm mode r

/-- The output-format stage: dB conversion of the polarization bands when
requested, identity for linear output. -/
noncomputable def formatStage (fmt : OutFormat) : Image → Image :=
  match fmt with
  | .LINEAR => id
  | .DB => applyToBands fun n r => if n = angleBand then r else toDBRaster r

/-- Modelled from the spec: the processing core — border-noise correction,
speckle filtering in the selected framework, terrain flattening and unit
conversion, each stage applied when its toggle is on. -/
noncomputable def process (cfg : Config) (tm : TerrainModel)
    (stack : List Image) : List Image :=
  let s1 := if cfg.applyBorderNoise then stack.map borderStage else stack
  let s2 :=
    if cfg.applySpeckle then
      match cfg.framework with
      | .MONO => s1.map (monoSpeckleStage cfg.kernel)
      | .MULTI => multiTemporalApply cfg.kernel cfg.nrOfImages s1
    else s1
  let s3 := if cfg.applyTerrain then s2.map (terrainStage tm cfg.terrainMode)
    else s2
  s3.map (formatStage cfg.format)

/-- Modelled from the spec: the pipeline entry point called by the
notebook — validate the configuration, reject an empty stack, then run
the processing core. -/
noncomputable def s1_preproc (raw : RawConfig) (tm : TerrainModel)
    (stack : List Image) : Except ConfigurationError (List Image) :=
  match validateConfig raw with
  | .error e => .error e
  | .ok cfg =>
    if stack.isEmpty then .error .emptyStack
    else .ok (process cfg tm stack)

/-- A raster is all-no-data when every pixel is the no-data sentinel. -/
def Raster.allNoData (r : Raster) : Prop :=
  ∀ i j, r.px i j = none

/-- An image is all-no-data when every band raster is. -/
def Image.allNoData (img : Image) : Prop :=
  ∀ b ∈ img.bands, Raster.allNoData b.2

/-- The border-noise stage acting on a store of rasters: it reads its
input from the store and returns the corrected raster; the store itself is
returned untouched. -/
noncomputable def runBorderStage (store : List Raster) (i : Nat) :
    List Raster × Option Raster :=
  (store, (store.get? i).map borderNoiseCorrect)

/-- The reference-selection contract of the multi-temporal filter: at most
`wl` references; a stack shorter than `wl + 1` uses every available image;
otherwise exactly `wl` references, never the target itself, consisting of
the `min t wl` images immediately preceding the target, filled up from the
images immediately following it. -/
def RefSelectionSpec (n wl t : Nat) : Prop :=
  (refIndices n wl t).length ≤ wl ∧
  (n < wl + 1 → refIndices n wl t = List.range n) ∧
  (wl + 1 ≤ n →
    (refIndices n wl t).length = wl ∧
    (∀ i ∈ refIndices n wl t, i < n ∧ i ≠ t) ∧
    (∀ i, t - min t wl ≤ i → i < t → i ∈ refIndices n wl t) ∧
    (∀ i, t < i → i ≤ t + (wl - min t wl) → i ∈ refIndices n wl t) ∧
    (∀ i ∈ refIndices n wl t, i < t → t - min t wl ≤ i) ∧
    (∀ i ∈ refIndices n wl t, t < i → i ≤ t + (wl - min t wl)))

/-- A terrain model with trivial geometry, used to exercise the pipeline
on concrete inputs. -/
noncomputable def tmTrivial : TerrainModel :=
  ⟨fun _ _ => 1, fun _ _ => 1, fun _ _ => 1, fun _ _ => false⟩

/-- The notebook's parameter dictionary, restricted to the core options. -/
def rawDefault : RawConfig :=
  ⟨true, true, "MULTI", "GAMMA MAP", 9, 10, true, "VOLUME", "DB"⟩

/-- The notebook's parameters with an even kernel size. -/
def rawBadKernel : RawConfig :=
  ⟨true, true, "MULTI", "GAMMA MAP", 4, 10, true, "VOLUME", "DB"⟩

/-- The notebook's parameters with an underscore-tagged filter name. -/
def rawBadFilter : RawConfig :=
  ⟨true, true, "MULTI", "GAMMA_MAP", 9, 10, true, "VOLUME", "DB"⟩

/-- The notebook's parameters with an unsupported framework name. -/
def rawBadFramework : RawConfig :=
  ⟨true, true, "MULT", "GAMMA MAP", 9, 10, true, "VOLUME", "DB"⟩

/-- A 1-by-1 raster with no valid pixel. -/
def rNone : Raster :=
  ⟨1, 1, fun _ _ => none, by intro i j h; rfl⟩

/-- A two-band all-no-data image carrying the angle companion band. -/
def imgNone : Image :=
  ⟨[("VV", rNone), ("angle", rNone)]⟩

/-- A 3-by-3 raster constantly 2 inside its bounds. -/
noncomputable def constRaster3 : Raster :=
  ⟨3, 3,
    fun i j => if i < 3 ∧ j < 3 then some 2 else none,
    by
      intro i j h
      dsimp only
      rw [if_neg]
      omega⟩

/-- A size-3 boxcar kernel. -/
def kern3 : FilterKernel :=
  ⟨3, .BOXCAR⟩

/-- A size-3 GAMMA MAP kernel. -/
def kern3g : FilterKernel :=
  ⟨3, .GAMMA_MAP⟩

/-- The validated form of the notebook's parameter dictionary. -/
def cfgDefault : Config :=
  ⟨true, true, .MULTI, ⟨9, .GAMMA_MAP⟩, 10, true, .VOLUME, .DB⟩

/-! Theorems -/

theorem kernelSizeValid_iff (n : Nat) :
    kernelSizeValid n = true ↔ n % 2 = 1 ∧ 3 ≤ n := by
  simp [kernelSizeValid]

/-- C1: for every non-empty stack, kernel and window length, the
multi-temporal filter selects for each target date a reference set of up
to `window_length` images, preferring the images immediately preceding the
target and filling the remainder from the immediately following images in
chronological-proximity order; a stack shorter than `window_length + 1`
uses every available image as the reference set of every date. -/
theorem multitemporal_reference_selection (n wl t : Nat) (ht : t < n) :
    RefSelectionSpec n wl t := by
  unfold RefSelectionSpec refIndices
  by_cases h : n < wl + 1
  · simp only [if_pos h, List.length_range]
    exact ⟨by omega, fun _ => trivial, fun h2 => absurd h2 (by omega)⟩
  · simp only [if_neg h]
    push_neg at h
    have hmin : min t wl ≤ t := Nat.min_le_left t wl
    have hmin2 : min t wl ≤ wl := Nat.min_le_right t wl
    refine ⟨?_, fun h2 => absurd h2 (by omega), fun _ => ⟨?_, ?_, ?_, ?_, ?_, ?_⟩⟩
    · simp only [List.length_append, List.length_map, List.length_range]
      omega
    · simp only [List.length_append, List.length_map, List.length_range]
      omega
    · intro i hi
      simp only [List.mem_append, List.mem_map, List.mem_range] at hi
      rcases hi with ⟨a, ha, rfl⟩ | ⟨a, ha, rfl⟩
      · constructor <;> omega
      · have : min t wl < wl := by omega
        have ht2 : min t wl = t := by omega
        constructor <;> omega
    · intro i h1 h2
      simp only [List.mem_append, List.mem_map, List.mem_range]
      left
      exact ⟨i - (t - min t wl), by omega, by omega⟩
    · intro i h1 h2
      simp only [List.mem_append, List.mem_map, List.mem_range]
      right
      exact ⟨i - (t + 1), by omega, by omega⟩
    · intro i hi hlt
      simp only [List.mem_append, List.mem_map, List.mem_range] at hi
      rcases hi with ⟨a, ha, rfl⟩ | ⟨a, ha, rfl⟩ <;> omega
    · intro i hi hgt
      simp only [List.mem_append, List.mem_map, List.mem_range] at hi
      rcases hi with ⟨a, ha, rfl⟩ | ⟨a, ha, rfl⟩
      · omega
      · have : min t wl = t ∨ min t wl = wl := by omega
        rcases this with h2 | h2 <;> omega

/-- Witness for C1 at a 10-image stack, window length 3, target index 1. -/
theorem multitemporal_reference_selection_witness :
    1 < 10 ∧ RefSelectionSpec 10 3 1 :=
  ⟨by omega, multitemporal_reference_selection 10 3 1 (by omega)⟩

/-- C2: an even or too-small speckle kernel size is rejected at
construction with a `ConfigurationError`, before any image processing (the
pipeline returns the error for every stack); every odd size at least 3 is
accepted. -/
theorem kernel_size_fail_fast :
    (∀ (size : Nat) (kind : FilterKind), size % 2 = 0 ∨ size < 3 →
      mkFilterKernel size kind = .error .invalidKernelSize) ∧
    (∀ (size : Nat) (kind : FilterKind), size % 2 = 1 → 3 ≤ size →
      mkFilterKernel size kind = .ok ⟨size, kind⟩) ∧
    (∀ (raw : RawConfig) (tm : TerrainModel) (stack : List Image),
      raw.SPECKLE_FILTER_KERNEL_SIZE % 2 = 0 ∨
        raw.SPECKLE_FILTER_KERNEL_SIZE < 3 →
      s1_preproc raw tm stack = .error .invalidKernelSize) := by
  refine ⟨?_, ?_, ?_⟩
  · intro size kind hs
    have hv : kernelSizeValid size = false := by
      cases hb : kernelSizeValid size with
      | false => rfl
      | true => exact absurd ((kernelSizeValid_iff size).mp hb) (by omega)
    simp [mkFilterKernel, hv]
  · intro size kind h1 h2
    have hv : kernelSizeValid size = true := by
      simp only [kernelSizeValid, Bool.and_eq_true, decide_eq_true_eq]
      omega
    simp [mkFilterKernel, hv]
  · intro raw tm stack hs
    have hv : kernelSizeValid raw.SPECKLE_FILTER_KERNEL_SIZE = false := by
      cases hb : kernelSizeValid raw.SPECKLE_FILTER_KERNEL_SIZE with
      | false => rfl
      | true =>
        exact absurd ((kernelSizeValid_iff raw.SPECKLE_FILTER_KERNEL_SIZE).mp hb)
          (by omega)
    simp [s1_preproc, validateConfig, hv]

/-- Witness for C2: size 4 is rejected, size 3 accepted, and the
notebook's configuration with kernel size 4 makes the pipeline fail fast
on any stack. -/
theorem kernel_size_fail_fast_witness :
    ((4 % 2 = 0 ∨ 4 < 3) ∧
      mkFilterKernel 4 .LEE = .error .invalidKernelSize) ∧
    (3 % 2 = 1 ∧ 3 ≤ 3 ∧ mkFilterKernel 3 .LEE = .ok ⟨3, .LEE⟩) ∧
    ((rawBadKernel.SPECKLE_FILTER_KERNEL_SIZE % 2 = 0 ∨
        rawBadKernel.SPECKLE_FILTER_KERNEL_SIZE < 3) ∧
      s1_preproc rawBadKernel tmTrivial [imgNone] =
        .error .invalidKernelSize) :=
  ⟨⟨Or.inl rfl, kernel_size_fail_fast.1 4 .LEE (Or.inl rfl)⟩,
    ⟨rfl, by omega, kernel_size_fail_fast.2.1 3 .LEE rfl (by omega)⟩,
    ⟨Or.inl rfl,
      kernel_size_fail_fast.2.2 rawBadKernel tmTrivial [imgNone]
        (Or.inl rfl)⟩⟩

/-- C9: the accepted `SPECKLE_FILTER` strings are exactly the five
space-separated names, the accepted frameworks exactly `MONO` and `MULTI`,
and any other string is rejected at configuration validation, before any
image is processed. -/
theorem accepted_filter_and_framework_names :
    (∀ s : String, (parseSpeckleFilter s).isSome = true ↔
      s ∈ ["BOXCAR", "LEE", "GAMMA MAP", "REFINED LEE", "LEE SIGMA"]) ∧
    (∀ s : String, (parseFramework s).isSome = true ↔ s ∈ ["MONO", "MULTI"]) ∧
    (∀ (raw : RawConfig) (tm : TerrainModel) (stack : List Image),
      parseSpeckleFilter raw.SPECKLE_FILTER = none →
      ∃ e, s1_preproc raw tm stack = .error e) ∧
    (∀ (raw : RawConfig) (tm : TerrainModel) (stack : List Image),
      parseFramework raw.SPECKLE_FILTER_FRAMEWORK = none →
      ∃ e, s1_preproc raw tm stack = .error e) := by
  refine ⟨?_, ?_, ?_, ?_⟩
  · intro s
    unfold parseSpeckleFilter
    split_ifs with h1 h2 h3 h4 h5 <;> simp_all
  · intro s
    unfold parseFramework
    split_ifs with h1 h2 <;> simp_all
  · intro raw tm stack hp
    by_cases hk : kernelSizeValid raw.SPECKLE_FILTER_KERNEL_SIZE = true
    · exact ⟨.unsupportedFilterName, by simp [s1_preproc, validateConfig, hk, hp]⟩
    · exact ⟨.invalidKernelSize,
        by simp [s1_preproc, validateConfig, Bool.of_not_eq_true hk]⟩
  · intro raw tm stack hp
    by_cases hk : kernelSizeValid raw.SPECKLE_FILTER_KERNEL_SIZE = true
    · cases hf : parseSpeckleFilter raw.SPECKLE_FILTER with
      | none =>
        exact ⟨.unsupportedFilterName, by simp [s1_preproc, validateConfig, hk, hf]⟩
      | some kind =>
        exact ⟨.unsupportedFrameworkName,
          by simp [s1_preproc, validateConfig, hk, hf, hp]⟩
    · exact ⟨.invalidKernelSize,
        by simp [s1_preproc, validateConfig, Bool.of_not_eq_true hk]⟩

/-- Witness for C9: the underscore-tagged filter name `GAMMA_MAP` and the
framework name `MULT` are both rejected before processing. -/
theorem accepted_filter_and_framework_names_witness :
    (parseSpeckleFilter rawBadFilter.SPECKLE_FILTER = none ∧
      ∃ e, s1_preproc rawBadFilter tmTrivial [imgNone] = .error e) ∧
    (parseFramework rawBadFramework.SPECKLE_FILTER_FRAMEWORK = none ∧
      ∃ e, s1_preproc rawBadFramework tmTrivial [imgNone] = .error e) :=
  ⟨⟨rfl,
      accepted_filter_and_framework_names.2.2.1 rawBadFilter tmTrivial
        [imgNone] rfl⟩,
    ⟨rfl,
      accepted_filter_and_framework_names.2.2.2 rawBadFramework tmTrivial
        [imgNone] rfl⟩⟩

/-- C4: linear-to-dB computes `10 · log10 x` for positive `x` and maps
`x ≤ 0` to no-data; dB-to-linear is the inverse in both directions, and
the linear→dB→linear round trip returns `x` to within `1e-6` relative
error for every positive `x`. -/
theorem db_linear_conversion :
    (∀ x : ℝ, x ≤ 0 → lin2db x = none) ∧
    (∀ x : ℝ, 0 < x →
      lin2db x = some (10 * Real.logb 10 x) ∧
      db2lin (10 * Real.logb 10 x) = x ∧
      |db2lin (10 * Real.logb 10 x) - x| ≤ 1 / 1000000 * x) ∧
    (∀ y : ℝ, lin2db (db2lin y) = some y) := by
  have h10 : (0 : ℝ) < 10 := by norm_num
  have h10ne : (10 : ℝ) ≠ 1 := by norm_num
  refine ⟨?_, ?_, ?_⟩
  · intro x hx
    simp [lin2db, not_lt.mpr hx]
  · intro x hx
    have hrt : db2lin (10 * Real.logb 10 x) = x := by
      unfold db2lin
      rw [mul_div_cancel_left₀ _ (by norm_num : (10 : ℝ) ≠ 0)]
      exact Real.rpow_logb h10 h10ne hx
    refine ⟨by simp [lin2db, hx], hrt, ?_⟩
    rw [hrt, sub_self, abs_zero]
    positivity
  · intro y
    have hpos : (0 : ℝ) < (10 : ℝ) ^ (y / 10) :=
      Real.rpow_pos_of_pos h10 _
    simp only [lin2db, db2lin]
    rw [if_pos hpos, Real.logb_rpow h10 h10ne]
    have : 10 * (y / 10) = y := by ring
    rw [this]

/-- Witness for C4 at `x = 0` (mapped to no-data) and `x = 1` (exact
round trip). -/
theorem db_linear_conversion_witness :
    ((0 : ℝ) ≤ 0 ∧ lin2db 0 = none) ∧
    (0 < (1 : ℝ) ∧
      (lin2db 1 = some (10 * Real.logb 10 1) ∧
        db2lin (10 * Real.logb 10 1) = 1 ∧
        |db2lin (10 * Real.logb 10 1) - 1| ≤ 1 / 1000000 * 1)) :=
  ⟨⟨le_refl 0, db_linear_conversion.1 0 (le_refl 0)⟩,
    ⟨one_pos, db_linear_conversion.2.1 1 one_pos⟩⟩

theorem mem_windowSamples_iff (r : Raster) (k i j : Nat) (d : Int × Int)
    (v : ℝ) :
    (d, v) ∈ windowSamples r k i j ↔
      d ∈ windowOffsets k ∧
      0 ≤ (i : Int) + d.1 ∧ (i : Int) + d.1 < (r.height : Int) ∧
      0 ≤ (j : Int) + d.2 ∧ (j : Int) + d.2 < (r.width : Int) ∧
      r.px ((i : Int) + d.1).toNat ((j : Int) + d.2).toNat = some v := by
  unfold windowSamples
  rw [List.mem_filterMap]
  constructor
  · rintro ⟨d0, hd0, hf⟩
    dsimp only at hf
    by_cases hc : 0 ≤ (i : Int) + d0.1 ∧ (i : Int) + d0.1 < (r.height : Int) ∧
        0 ≤ (j : Int) + d0.2 ∧ (j : Int) + d0.2 < (r.width : Int)
    · rw [if_pos hc] at hf
      cases hpx : r.px ((i : Int) + d0.1).toNat ((j : Int) + d0.2).toNat with
      | none =>
        rw [hpx] at hf
        exact absurd hf (by simp)
      | some v0 =>
        rw [hpx] at hf
        simp only [Option.some.injEq, Prod.mk.injEq] at hf
        obtain ⟨rfl, rfl⟩ := hf
        exact ⟨hd0, hc.1, hc.2.1, hc.2.2.1, hc.2.2.2, hpx⟩
    · rw [if_neg hc] at hf
      exact absurd hf (by simp)
  · rintro ⟨hd, h1, h2, h3, h4, hpx⟩
    refine ⟨d, hd, ?_⟩
    dsimp only
    rw [if_pos ⟨h1, h2, h3, h4⟩, hpx]

/-- C3: for every valid kernel of any of the five kinds and every raster,
the filter bank preserves the pixel dimensions, passes no-data pixels
through unmodified, draws its local statistics only from in-bounds valid
window pixels (the window shrinks at the raster boundary rather than
wrapping or padding), and yields no-data where the whole window is
no-data. -/
theorem speckle_filter_bank_invariants (kern : FilterKernel)
    (hk : kernelSizeValid kern.size = true) (r : Raster) :
    (applyFilter kern r).width = r.width ∧
    (applyFilter kern r).height = r.height ∧
    (∀ i j, r.px i j = none → (applyFilter kern r).px i j = none) ∧
    (∀ (i j : Nat) (d : Int × Int) (v : ℝ),
      (d, v) ∈ windowSamples r kern.size i j →
      d ∈ windowOffsets kern.size ∧
      0 ≤ (i : Int) + d.1 ∧ (i : Int) + d.1 < (r.height : Int) ∧
      0 ≤ (j : Int) + d.2 ∧ (j : Int) + d.2 < (r.width : Int) ∧
      r.px ((i : Int) + d.1).toNat ((j : Int) + d.2).toNat = some v) ∧
    (∀ i j : Nat,
      (∀ a b : Nat,
        ((a : Int) - (i : Int), (b : Int) - (j : Int)) ∈ windowOffsets kern.size →
        r.px a b = none) →
      (applyFilter kern r).px i j = none) := by
  refine ⟨rfl, rfl, ?_, ?_, ?_⟩
  · intro i j h
    simp [applyFilter, h]
  · intro i j d v hmem
    exact (mem_windowSamples_iff r kern.size i j d v).mp hmem
  · intro i j hwin
    cases hpx : r.px i j with
    | none => simp [applyFilter, hpx]
    | some c =>
      have hempty : windowSamples r kern.size i j = [] := by
        rw [List.eq_nil_iff_forall_not_mem]
        rintro ⟨d, v⟩ hmem
        obtain ⟨hd, h1, h2, h3, h4, hpv⟩ :=
          (mem_windowSamples_iff r kern.size i j d v).mp hmem
        have hda : (((((i : Int) + d.1).toNat : Int) - (i : Int)),
            ((((j : Int) + d.2).toNat : Int) - (j : Int))) = d := by
          rw [Int.toNat_of_nonneg h1, Int.toNat_of_nonneg h3]
          simp
        have := hwin ((i : Int) + d.1).toNat ((j : Int) + d.2).toNat
          (by rw [hda]; exact hd)
        rw [this] at hpv
        cases hpv
      simp [applyFilter, hpx, hempty]

/-- Witness for C3 at the size-3 boxcar kernel on a 1-by-1 all-no-data
raster. -/
theorem speckle_filter_bank_invariants_witness :
    kernelSizeValid kern3.size = true ∧
    ((applyFilter kern3 rNone).width = rNone.width ∧
      (applyFilter kern3 rNone).height = rNone.height ∧
      (∀ i j, rNone.px i j = none → (applyFilter kern3 rNone).px i j = none) ∧
      (∀ (i j : Nat) (d : Int × Int) (v : ℝ),
        (d, v) ∈ windowSamples rNone kern3.size i j →
        d ∈ windowOffsets kern3.size ∧
        0 ≤ (i : Int) + d.1 ∧ (i : Int) + d.1 < (rNone.height : Int) ∧
        0 ≤ (j : Int) + d.2 ∧ (j : Int) + d.2 < (rNone.width : Int) ∧
        rNone.px ((i : Int) + d.1).toNat ((j : Int) + d.2).toNat = some v) ∧
      (∀ i j : Nat,
        (∀ a b : Nat,
          ((a : Int) - (i : Int), (b : Int) - (j : Int)) ∈
            windowOffsets kern3.size →
          rNone.px a b = none) →
        (applyFilter kern3 rNone).px i j = none)) :=
  ⟨by decide, speckle_filter_bank_invariants kern3 (by decide) rNone⟩

theorem center_mem_windowOffsets (k : Nat) (hk : 1 ≤ k) :
    ((0 : Int), (0 : Int)) ∈ windowOffsets k := by
  have h2 : k / 2 < k := by omega
  unfold windowOffsets
  exact List.mem_flatMap.mpr ⟨k / 2, List.mem_range.mpr h2,
    List.mem_map.mpr ⟨k / 2, List.mem_range.mpr h2, by simp [halfSize]⟩⟩

/-- C5: whenever the GAMMA MAP quadratic has no real positive root, the
estimate falls back to the local window mean; and on every valid center
pixel the GAMMA MAP filter produces a value locally (the output pixel is
the estimate computed from the window statistics), never an error. -/
theorem gamma_map_degenerate_fallback :
    (∀ c m v : ℝ, gammaDisc c m v < 0 ∨ gammaRoot c m v ≤ 0 →
      gammaMapStat c m v = m) ∧
    (∀ (kern : FilterKernel) (r : Raster) (i j : Nat) (c : ℝ),
      kern.kind = .GAMMA_MAP → 1 ≤ kern.size → r.px i j = some c →
      (applyFilter kern r).px i j =
        some (gammaMapStat c
          (mean (sampleVals (windowSamples r kern.size i j)))
          (variance (sampleVals (windowSamples r kern.size i j))))) := by
  refine ⟨?_, ?_⟩
  · intro c m v h
    unfold gammaMapStat
    rcases h with h | h
    · rw [if_pos h]
    · by_cases hd : gammaDisc c m v < 0
      · rw [if_pos hd]
      · rw [if_neg hd, if_pos h]
  · intro kern r i j c hkind hks hpx
    have hih : i < r.height := by
      by_contra h1
      push_neg at h1
      have := r.wf i j (Or.inl h1)
      rw [this] at hpx
      cases hpx
    have hjw : j < r.width := by
      by_contra h1
      push_neg at h1
      have := r.wf i j (Or.inr h1)
      rw [this] at hpx
      cases hpx
    have hmem : (((0 : Int), (0 : Int)), c) ∈ windowSamples r kern.size i j := by
      rw [mem_windowSamples_iff]
      refine ⟨center_mem_windowOffsets kern.size hks, by simp, ?_, by simp, ?_, ?_⟩
      · simpa using Int.ofNat_lt.mpr hih
      · simpa using Int.ofNat_lt.mpr hjw
      · simpa using hpx
    have hne : ¬(windowSamples r kern.size i j).isEmpty = true := by
      intro he
      rw [List.isEmpty_iff] at he
      rw [he] at hmem
      cases hmem
    simp only [applyFilter, hpx]
    rw [if_neg hne, hkind]
    rfl

/-- Witness for C5: concrete local statistics with a negative discriminant
fall back to the mean, and the GAMMA MAP filter produces a value at the
center pixel of a concrete constant raster. -/
theorem gamma_map_degenerate_fallback_witness :
    (gammaDisc (-1) 1 1 < 0 ∧ gammaMapStat (-1) 1 1 = 1) ∧
    (kern3g.kind = .GAMMA_MAP ∧ 1 ≤ kern3g.size ∧
      constRaster3.px 1 1 = some 2 ∧
      (applyFilter kern3g constRaster3).px 1 1 =
        some (gammaMapStat 2
          (mean (sampleVals (windowSamples constRaster3 kern3g.size 1 1)))
          (variance (sampleVals (windowSamples constRaster3 kern3g.size 1 1))))) := by
  have hdisc : gammaDisc (-1) 1 1 < 0 := by
    norm_num [gammaDisc, gammaAlpha, gammaCu2, ENL]
  have hpx : constRaster3.px 1 1 = some 2 := by
    norm_num [constRaster3]
  exact ⟨⟨hdisc, gamma_map_degenerate_fallback.1 (-1) 1 1 (Or.inl hdisc)⟩,
    ⟨rfl, by norm_num [kern3g], hpx,
      gamma_map_degenerate_fallback.2 kern3g constRaster3 1 1 2 rfl
        (by norm_num [kern3g]) hpx⟩⟩

theorem filterMap_eq_map_of_forall {α β : Type _} (f : α → Option β)
    (g : α → β) (l : List α) (h : ∀ a ∈ l, f a = some (g a)) :
    l.filterMap f = l.map g := by
  induction l with
  | nil => rfl
  | cons x xs ih =>
    rw [List.filterMap_cons, h x (List.mem_cons_self x xs), List.map_cons,
      ih fun a ha => h a (List.mem_cons_of_mem x ha)]

theorem sum_map_length_const {α β : Type _} (l : List α) (f : α → List β)
    (n : Nat) (h : ∀ a ∈ l, (f a).length = n) :
    (l.map (List.length ∘ f)).sum = l.length * n := by
  induction l with
  | nil => simp
  | cons a t ih =>
    simp only [List.map_cons, List.sum_cons, Function.comp_apply,
      List.length_cons, h a (List.mem_cons_self a t),
      ih fun x hx => h x (List.mem_cons_of_mem a hx)]
    ring

theorem windowOffsets_length (k : Nat) : (windowOffsets k).length = k * k := by
  unfold windowOffsets
  rw [List.length_flatMap,
    sum_map_length_const (List.range k) _ k
      (by intro a ha; rw [List.length_map, List.length_range]),
    List.length_range]

theorem mean_const (n : Nat) (hn : n ≠ 0) (c : ℝ) :
    mean (List.replicate n c) = c := by
  unfold mean
  rw [List.sum_replicate, List.length_replicate, nsmul_eq_mul]
  exact mul_div_cancel_left₀ c (Nat.cast_ne_zero.mpr hn)

/-- C7: whenever the full kernel window lies inside a constant-value
region of the raster, the BOXCAR filter returns exactly that constant at
the center pixel. -/
theorem boxcar_constant_region (k : Nat) (hk : kernelSizeValid k = true)
    (r : Raster) (i j : Nat) (cval : ℝ)
    (hconst : ∀ d ∈ windowOffsets k,
      (0 ≤ (i : Int) + d.1 ∧ (i : Int) + d.1 < (r.height : Int) ∧
        0 ≤ (j : Int) + d.2 ∧ (j : Int) + d.2 < (r.width : Int)) ∧
      r.px ((i : Int) + d.1).toNat ((j : Int) + d.2).toNat = some cval) :
    (applyFilter ⟨k, .BOXCAR⟩ r).px i j = some cval := by
  have hk3 := (kernelSizeValid_iff k).mp hk
  have hkk : k * k ≠ 0 := Nat.mul_ne_zero (by omega) (by omega)
  have hctr := center_mem_windowOffsets k (by omega)
  have hpx : r.px i j = some cval := by
    have := (hconst _ hctr).2
    simpa using this
  have hsamples : windowSamples r k i j =
      (windowOffsets k).map fun d => (d, cval) := by
    unfold windowSamples
    apply filterMap_eq_map_of_forall
    intro d hd
    obtain ⟨hb, hv⟩ := hconst d hd
    dsimp only
    rw [if_pos ⟨hb.1, hb.2.1, hb.2.2.1, hb.2.2.2⟩, hv]
  have hlen : ((windowOffsets k).map fun d => (d, cval)).length = k * k := by
    rw [List.length_map, windowOffsets_length]
  have hne : ¬((windowOffsets k).map fun d => (d, cval)).isEmpty = true := by
    intro he
    rw [List.isEmpty_iff] at he
    rw [he] at hlen
    simp only [List.length_nil] at hlen
    exact absurd hlen.symm hkk
  simp only [applyFilter, hpx]
  rw [hsamples, if_neg hne]
  have hvals : sampleVals ((windowOffsets k).map fun d => (d, cval)) =
      List.replicate (windowOffsets k).length cval := by
    unfold sampleVals
    rw [List.map_map]
    exact List.map_const' (windowOffsets k) cval
  show some (statOf .BOXCAR cval ((windowOffsets k).map fun d => (d, cval))) =
    some cval
  unfold statOf
  rw [hvals, windowOffsets_length, mean_const (k * k) hkk cval]

/-- Witness for C7: the size-3 boxcar on the center pixel of a 3-by-3
constant raster of value 2 returns 2. -/
theorem boxcar_constant_region_witness :
    kernelSizeValid 3 = true ∧
    (applyFilter ⟨3, .BOXCAR⟩ constRaster3).px 1 1 = some 2 := by
  refine ⟨by decide, boxcar_constant_region 3 (by decide) constRaster3 1 1 2 ?_⟩
  have hoff : windowOffsets 3 =
      [(-1, -1), (-1, 0), (-1, 1), (0, -1), (0, 0), (0, 1),
        (1, -1), (1, 0), (1, 1)] := by
    rfl
  intro d hd
  rw [hoff] at hd
  fin_cases hd <;>
    exact ⟨by norm_num [constRaster3], by norm_num [constRaster3]⟩

/-- C8: the border-noise corrector is a deterministic pure function —
equal inputs give equal outputs, the store it reads its input from is
returned unchanged, and per pixel it either returns the input value or
masks it to no-data (it never invents a value), preserving dimensions. -/
theorem border_noise_corrector_pure :
    (∀ r1 r2 : Raster, r1 = r2 → borderNoiseCorrect r1 = borderNoiseCorrect r2) ∧
    (∀ (store : List Raster) (i : Nat),
      (runBorderStage store i).1 = store ∧
      (runBorderStage store i).2 = (store.get? i).map borderNoiseCorrect) ∧
    (∀ (r : Raster) (i j : Nat),
      (borderNoiseCorrect r).px i j = r.px i j ∨
      (borderNoiseCorrect r).px i j = none) ∧
    (∀ r : Raster, (borderNoiseCorrect r).width = r.width ∧
      (borderNoiseCorrect r).height = r.height) := by
  refine ⟨fun r1 r2 h => by rw [h], fun store i => ⟨rfl, rfl⟩, ?_,
    fun r => ⟨rfl, rfl⟩⟩
  intro r i j
  by_cases hc : inMaskedBorder r i j
  · exact Or.inr (if_pos hc)
  · exact Or.inl (if_neg hc)

/-- Witness for C8 applying purity to a concrete raster and store. -/
theorem border_noise_corrector_pure_witness :
    rNone = rNone ∧ borderNoiseCorrect rNone = borderNoiseCorrect rNone :=
  ⟨rfl, border_noise_corrector_pure.1 rNone rNone rfl⟩

theorem borderNoiseCorrect_allNoData (r : Raster) (h : r.allNoData) :
    (borderNoiseCorrect r).allNoData := by
  intro i j
  show (if inMaskedBorder r i j then none else r.px i j) = none
  rw [h i j, ite_self]

theorem applyFilter_allNoData (kern : FilterKernel) (r : Raster)
    (h : r.allNoData) : (applyFilter kern r).allNoData := by
  intro i j
  simp [applyFilter, h i j]

theorem toDBRaster_allNoData (r : Raster) (h : r.allNoData) :
    (toDBRaster r).allNoData := by
  intro i j
  simp [toDBRaster, h i j]

theorem terrainFlatten_allNoData (tm : TerrainModel) (mode : TerrainMode)
    (r : Raster) (h : r.allNoData) : (terrainFlatten tm mode r).allNoData := by
  intro i j
  simp [terrainFlatten, h i j]

theorem ratioRaster_allNoData (refs : List Raster) (target : Raster)
    (h : target.allNoData) : (ratioRaster refs target).allNoData := by
  intro i j
  simp [ratioRaster, h i j]

theorem mtCorrectBand_allNoData (kern : FilterKernel) (refs : List Raster)
    (target : Raster) (h : target.allNoData) :
    (mtCorrectBand kern refs target).allNoData := by
  intro i j
  have hf := applyFilter_allNoData kern (ratioRaster refs target)
    (ratioRaster_allNoData refs target h)
  simp [mtCorrectBand, hf i j]

theorem applyToBands_allNoData (f : String → Raster → Raster) (img : Image)
    (hf : ∀ n r, Raster.allNoData r → Raster.allNoData (f n r))
    (h : img.allNoData) : (applyToBands f img).allNoData := by
  intro b hb
  simp only [applyToBands, List.mem_map] at hb
  obtain ⟨b0, hb0, rfl⟩ := hb
  exact hf b0.1 b0.2 (h b0 hb0)

theorem mapIdx_forall_mem {α β : Type _} (l : List α) (f : Nat → α → β)
    (Q : β → Prop) (hf : ∀ i a, a ∈ l → Q (f i a)) :
    ∀ b ∈ l.mapIdx f, Q b := by
  induction l generalizing f with
  | nil => intro b hb; simp at hb
  | cons a t ih =>
    intro b hb
    rw [List.mapIdx_cons] at hb
    rcases List.mem_cons.mp hb with rfl | hb2
    · exact hf 0 a (List.mem_cons_self a t)
    · exact ih (fun i => f (i + 1))
        (fun i x hx => hf (i + 1) x (List.mem_cons_of_mem a hx)) b hb2

theorem multiTemporalApply_allNoData (kern : FilterKernel) (wl : Nat)
    (stack : List Image) (h : ∀ img ∈ stack, img.allNoData) :
    ∀ img ∈ multiTemporalApply kern wl stack, img.allNoData := by
  unfold multiTemporalApply
  apply mapIdx_forall_mem
  intro t img0 hmem b hb
  simp only [List.mem_map] at hb
  obtain ⟨b0, hb0, rfl⟩ := hb
  split
  · exact h img0 hmem b0 hb0
  · exact mtCorrectBand_allNoData kern _ b0.2 (h img0 hmem b0 hb0)

theorem multiTemporalApply_length (kern : FilterKernel) (wl : Nat)
    (stack : List Image) :
    (multiTemporalApply kern wl stack).length = stack.length := by
  unfold multiTemporalApply
  rw [List.length_mapIdx]

theorem borderStage_allNoData (img : Image) (h : img.allNoData) :
    (borderStage img).allNoData :=
  applyToBands_allNoData _ img
    (fun _ r hr => borderNoiseCorrect_allNoData r hr) h

theorem monoSpeckleStage_allNoData (kern : FilterKernel) (img : Image)
    (h : img.allNoData) : (monoSpeckleStage kern img).allNoData := by
  apply applyToBands_allNoData _ img _ h
  intro n r hr
  dsimp only
  split
  · exact hr
  · exact applyFilter_allNoData kern r hr

theorem terrainStage_allNoData (tm : TerrainModel) (mode : TerrainMode)
    (img : Image) (h : img.allNoData) :
    (terrainStage tm mode img).allNoData := by
  apply applyToBands_allNoData _ img _ h
  intro n r hr
  dsimp only
  split
  · exact hr
  · exact terrainFlatten_allNoData tm mode r hr

theorem formatStage_allNoData (fmt : OutFormat) (img : Image)
    (h : img.allNoData) : (formatStage fmt img).allNoData := by
  cases fmt with
  | LINEAR => exact h
  | DB =>
    apply applyToBands_allNoData _ img _ h
    intro n r hr
    dsimp only
    split
    · exact hr
    · exact toDBRaster_allNoData r hr

theorem process_allNoData (cfg : Config) (tm : TerrainModel)
    (stack : List Image) (h : ∀ img ∈ stack, img.allNoData) :
    ∀ img ∈ process cfg tm stack, img.allNoData := by
  unfold process
  intro img hmem
  obtain ⟨i3, hi3, rfl⟩ := List.mem_map.mp hmem
  apply formatStage_allNoData
  have h1 : ∀ im ∈ (if cfg.applyBorderNoise
      then stack.map borderStage else stack), Image.allNoData im := by
    split
    · intro im hm
      obtain ⟨i0, hi0, rfl⟩ := List.mem_map.mp hm
      exact borderStage_allNoData i0 (h i0 hi0)
    · exact h
  have h2 : ∀ im ∈ (if cfg.applySpeckle then
      match cfg.framework with
      | .MONO =>
        (if cfg.applyBorderNoise then stack.map borderStage else stack).map
          (monoSpeckleStage cfg.kernel)
      | .MULTI =>
        multiTemporalApply cfg.kernel cfg.nrOfImages
          (if cfg.applyBorderNoise then stack.map borderStage else stack)
      else (if cfg.applyBorderNoise then stack.map borderStage else stack)),
      Image.allNoData im := by
    split
    · split
      · intro im hm
        obtain ⟨i0, hi0, rfl⟩ := List.mem_map.mp hm
        exact monoSpeckleStage_allNoData cfg.kernel i0 (h1 i0 hi0)
      · exact multiTemporalApply_allNoData cfg.kernel cfg.nrOfImages _ h1
    · exact h1
  revert hi3
  split
  · intro hi3
    obtain ⟨i0, hi0, rfl⟩ := List.mem_map.mp hi3
    exact terrainStage_allNoData tm cfg.terrainMode i0 (h2 i0 hi0)
  · intro hi3
    exact h2 i3 hi3

theorem process_length (cfg : Config) (tm : TerrainModel)
    (stack : List Image) : (process cfg tm stack).length = stack.length := by
  obtain ⟨abn, asp, fw, kern, nr, atf, tmode, fmt⟩ := cfg
  cases abn <;> cases asp <;> cases fw <;> cases atf <;>
    simp [process, multiTemporalApply_length]

/-- C6: for every validated configuration, an all-no-data image run
through the full pipeline yields an all-no-data image, and the pipeline
returns a result rather than an error. -/
theorem all_nodata_pipeline (raw : RawConfig) (cfg : Config)
    (tm : TerrainModel) (img : Image) (hv : validateConfig raw = .ok cfg)
    (hnd : img.allNoData) :
    ∃ out : Image, s1_preproc raw tm [img] = .ok [out] ∧ out.allNoData := by
  have hlen : (process cfg tm [img]).length = 1 := by
    rw [process_length]
    rfl
  have hall : ∀ im ∈ process cfg tm [img], im.allNoData := by
    apply process_allNoData
    intro im hm
    rw [List.mem_singleton] at hm
    rw [hm]
    exact hnd
  cases hp : process cfg tm [img] with
  | nil =>
    rw [hp] at hlen
    cases hlen
  | cons a l =>
    have hl : l = [] := by
      rw [hp] at hlen
      simpa using hlen
    subst hl
    refine ⟨a, ?_, ?_⟩
    · simp only [s1_preproc, hv, List.isEmpty_cons]
      rw [if_neg Bool.false_ne_true, hp]
    · exact hall a (by rw [hp]; exact List.mem_singleton_self a)

/-- Witness for C6: the notebook's validated configuration on a concrete
all-no-data two-band image. -/
theorem all_nodata_pipeline_witness :
    validateConfig rawDefault = .ok cfgDefault ∧ imgNone.allNoData ∧
    ∃ out : Image, s1_preproc rawDefault tmTrivial [imgNone] = .ok [out] ∧
      out.allNoData := by
  have hv : validateConfig rawDefault = .ok cfgDefault := rfl
  have hnd : imgNone.allNoData := by
    intro b hb
    simp only [imgNone, List.mem_cons, List.mem_singleton] at hb
    rcases hb with rfl | rfl | h
    · intro i j; rfl
    · intro i j; rfl
    · cases h
  exact ⟨hv, hnd, all_nodata_pipeline rawDefault cfgDefault tmTrivial imgNone hv hnd⟩

theorem applyToBands_bandNames (f : String → Raster → Raster) (img : Image) :
    (applyToBands f img).bandNames = img.bandNames := by
  unfold applyToBands Image.bandNames
  rw [List.map_map]
  rfl

theorem borderStage_bandNames (img : Image) :
    (borderStage img).bandNames = img.bandNames :=
  applyToBands_bandNames _ img

theorem monoSpeckleStage_bandNames (kern : FilterKernel) (img : Image) :
    (monoSpeckleStage kern img).bandNames = img.bandNames :=
  applyToBands_bandNames _ img

theorem terrainStage_bandNames (tm : TerrainModel) (mode : TerrainMode)
    (img : Image) : (terrainStage tm mode img).bandNames = img.bandNames :=
  applyToBands_bandNames _ img

theorem formatStage_bandNames (fmt : OutFormat) (img : Image) :
    (formatStage fmt img).bandNames = img.bandNames := by
  cases fmt with
  | LINEAR => rfl
  | DB => exact applyToBands_bandNames _ img

theorem multiTemporalApply_bandNames (kern : FilterKernel) (wl : Nat)
    (stack : List Image) :
    ∀ img ∈ multiTemporalApply kern wl stack,
      ∃ img0 ∈ stack, img.bandNames = img0.bandNames := by
  unfold multiTemporalApply
  apply mapIdx_forall_mem
  intro t img0 hmem
  refine ⟨img0, hmem, ?_⟩
  unfold Image.bandNames
  show (img0.bands.map _).map _ = _
  rw [List.map_map]
  apply List.map_congr_left
  intro b hb
  by_cases hbn : b.1 = angleBand
  · simp [hbn]
  · simp [hbn]

theorem process_bandNames (cfg : Config) (tm : TerrainModel)
    (stack : List Image) :
    ∀ img ∈ process cfg tm stack,
      ∃ img0 ∈ stack, img.bandNames = img0.bandNames := by
  unfold process
  intro img hmem
  obtain ⟨i3, hi3, rfl⟩ := List.mem_map.mp hmem
  rw [formatStage_bandNames]
  have h1 : ∀ im ∈ (if cfg.applyBorderNoise
      then stack.map borderStage else stack),
      ∃ img0 ∈ stack, im.bandNames = img0.bandNames := by
    split
    · intro im hm
      obtain ⟨i0, hi0, rfl⟩ := List.mem_map.mp hm
      exact ⟨i0, hi0, borderStage_bandNames i0⟩
    · exact fun im hm => ⟨im, hm, rfl⟩
  have h2 : ∀ im ∈ (if cfg.applySpeckle then
      match cfg.framework with
      | .MONO =>
        (if cfg.applyBorderNoise then stack.map borderStage else stack).map
          (monoSpeckleStage cfg.kernel)
      | .MULTI =>
        multiTemporalApply cfg.kernel cfg.nrOfImages
          (if cfg.applyBorderNoise then stack.map borderStage else stack)
      else (if cfg.applyBorderNoise then stack.map borderStage else stack)),
      ∃ img0 ∈ stack, im.bandNames = img0.bandNames := by
    split
    · split
      · intro im hm
        obtain ⟨i0, hi0, rfl⟩ := List.mem_map.mp hm
        obtain ⟨img0, hmem0, heq⟩ := h1 i0 hi0
        exact ⟨img0, hmem0, by rw [monoSpeckleStage_bandNames, heq]⟩
      · intro im hm
        obtain ⟨i0, hi0, heq⟩ :=
          multiTemporalApply_bandNames cfg.kernel cfg.nrOfImages _ im hm
        obtain ⟨img0, hmem0, heq0⟩ := h1 i0 hi0
        exact ⟨img0, hmem0, by rw [heq, heq0]⟩
    · exact h1
  revert hi3
  split
  · intro hi3
    obtain ⟨i0, hi0, rfl⟩ := List.mem_map.mp hi3
    obtain ⟨img0, hmem0, heq⟩ := h2 i0 hi0
    exact ⟨img0, hmem0, by rw [terrainStage_bandNames, heq]⟩
  · intro hi3
    exact h2 i3 hi3

/-- C10: for every validated configuration and every combination of the
stage toggles, each image of the returned collection carries the
incidence-angle band whenever every input image carries it: all stages
preserve the band list, so the `angle` companion band survives to the
output. -/
theorem angle_band_preserved (raw : RawConfig) (cfg : Config)
    (tm : TerrainModel) (stack outs : List Image)
    (hv : validateConfig raw = .ok cfg)
    (hangle : ∀ img ∈ stack, angleBand ∈ img.bandNames)
    (hout : s1_preproc raw tm stack = .ok outs) :
    ∀ out ∈ outs, angleBand ∈ out.bandNames := by
  have hproc : outs = process cfg tm stack := by
    simp only [s1_preproc, hv] at hout
    by_cases hs : stack.isEmpty = true
    · rw [if_pos hs] at hout
      cases hout
    · rw [if_neg hs] at hout
      exact (Except.ok.injEq _ _).mp hout.symm
  subst hproc
  intro out hm
  obtain ⟨img0, hmem0, heq⟩ := process_bandNames cfg tm stack out hm
  rw [heq]
  exact hangle img0 hmem0

/-- Witness for C10: the notebook's configuration on a singleton stack
whose image carries the angle band. -/
theorem angle_band_preserved_witness :
    validateConfig rawDefault = .ok cfgDefault ∧
    (∀ img ∈ [imgNone], angleBand ∈ img.bandNames) ∧
    s1_preproc rawDefault tmTrivial [imgNone] =
      .ok (process cfgDefault tmTrivial [imgNone]) ∧
    ∀ out ∈ process cfgDefault tmTrivial [imgNone],
      angleBand ∈ out.bandNames := by
  have hv : validateConfig rawDefault = .ok cfgDefault := rfl
  have hangle : ∀ img ∈ [imgNone], angleBand ∈ img.bandNames := by
    intro img hm
    rw [List.mem_singleton] at hm
    subst hm
    show angleBand ∈ ["VV", "angle"]
    right
    exact List.mem_singleton_self _
  have hout : s1_preproc rawDefault tmTrivial [imgNone] =
      .ok (process cfgDefault tmTrivial [imgNone]) := by
    simp only [s1_preproc, hv, List.isEmpty_cons]
    rw [if_neg Bool.false_ne_true]
  exact ⟨hv, hangle, hout,
    angle_band_preserved rawDefault cfgDefault tmTrivial [imgNone] _ hv hangle hout⟩

end S1
